import Mathlib

/-!
Verification of the `not_using_associated_type` clippy lint
(src/clippy_lints/src/not_using_associated_type.rs) against its
natural-language specification.

The lint's data model is a shallow embedding of the HIR fragments the
pass inspects: type paths (`QPath`), impl items, and the two-pass
`check_item` of `NotUsingAssociatedType`, together with the comparison
helpers `compare_self_ty`, `compare_path`, `compare_path_segments` and
the body visitor `MatchingPathVisitor::visit_qpath`.
-/

namespace NotUsingAssociatedType

/-- Source span, abstracted to a number. -/
abbrev Span := Nat

/-- A path segment (`rustc_hir::PathSegment`): identifier only; the
comparison functions in the source never look at generic arguments. -/
structure PathSegment where
  ident : String
  deriving DecidableEq, Repr

/-- A resolved path (`rustc_hir::Path`): its list of segments. -/
structure Path where
  segments : List PathSegment
  deriving DecidableEq, Repr

mutual

/-- A type (`rustc_hir::Ty`), restricted to the kinds `check_item`
distinguishes: `TyKind::Path(qpath)` versus every other kind. -/
inductive Ty where
  | path : QPath → Ty
  | otherKind : Ty

/-- A (possibly qualified) path, `rustc_hir::QPath`:
`Resolved(Option<&Ty>, &Path)`, `TypeRelative(&Ty, &PathSegment)`,
`LangItem(LangItem, Span)` (payload opaque to this lint). -/
inductive QPath where
  | resolved : Option Ty → Path → QPath
  | typeRelative : Ty → PathSegment → QPath
  | langItem : Nat → QPath

end

/-- `compare_self_ty` from the source: `None` matches only `None`;
`Some`/`Some` returns `true` unconditionally (the body is a `// TODO`
stub); `Some`/`None` returns `false`. -/
def compare_self_ty (first second : Option Ty) : Bool :=
  match first with
  | none => second.isNone
  | some _ =>
    match second with
    | some _ => true
    | none => false

/-- `compare_path` from the source: returns `true` for every pair. -/
def compare_path (first second : Path) : Bool :=
  true

/-- `compare_path_segments` from the source: returns `true` for every
pair. -/
def compare_path_segments (first second : PathSegment) : Bool :=
  true

/-- A diagnostic emitted by `span_lint`. -/
structure Finding where
  span : Span
  message : String
  deriving DecidableEq, Repr

/-- The fixed advisory message passed to `span_lint`. -/
def lintMessage : String :=
  "Used concrete type where associated type could be used instead"

/-- The body of the `for` loop of `MatchingPathVisitor::visit_qpath`:
the emissions produced when one collected binding target `matchPath`
is compared with the visited path. -/
def visitQPathStep (matchPath visitedQPath : QPath) (span : Span) :
    List Finding :=
  match matchPath with
  | QPath.resolved matchSelf matchPath' =>
    match visitedQPath with
    | QPath.resolved visitedSelf visitedPath =>
      if compare_self_ty matchSelf visitedSelf &&
          compare_path matchPath' visitedPath then
        [⟨span, lintMessage⟩]
      else []
    | _ => []
  | QPath.typeRelative matchRel matchSegment =>
    match visitedQPath with
    | QPath.typeRelative visitedRel visitedSegment =>
      if compare_self_ty (some matchRel) (some visitedRel) &&
          compare_path_segments matchSegment visitedSegment then
        [⟨span, lintMessage⟩]
      else []
    | _ => []
  | QPath.langItem _ => []

/-- `MatchingPathVisitor::visit_qpath`: iterates over `types_to_find`
in order, emitting via `span_lint` for each binding whose target
matches the visited path. -/
def visitQPath (typesToFind : List (String × QPath))
    (visitedQPath : QPath) (span : Span) : List Finding :=
  match typesToFind with
  | [] => []
  | (_useInstead, matchPath) :: rest =>
    visitQPathStep matchPath visitedQPath span ++
      visitQPath rest visitedQPath span

/-- A function body: the qualified-path occurrences (with spans) that
`intravisit::walk_body` would hand to `visit_qpath`, in traversal
order. -/
structure Body where
  qpaths : List (QPath × Span)

/-- An impl member (`rustc_hir::ImplItem`), restricted to the kinds
`check_item` distinguishes: `TyAlias`, `Fn` (signature elided, body
kept), and everything else. -/
inductive ImplItemKind where
  | tyAlias : Ty → ImplItemKind
  | fn : Body → ImplItemKind
  | otherKind : ImplItemKind

structure ImplItem where
  ident : String
  kind : ImplItemKind

/-- An item (`rustc_hir::Item`): an impl block with its member list,
or any other item kind. -/
inductive ItemKind where
  | «impl» : List ImplItem → ItemKind
  | otherKind : ItemKind

structure Item where
  kind : ItemKind

/-- First pass of `check_item`: for each impl member that is an
associated type whose right-hand side is `TyKind::Path`, push
`(ident, qpath)` onto `associated`, in member order. -/
def collectPass : List ImplItem → List (String × QPath)
  | [] => []
  | implItem :: rest =>
    (match implItem.kind with
     | ImplItemKind.tyAlias concreteTy =>
       match concreteTy with
       | Ty.path concretePath => [(implItem.ident, concretePath)]
       | Ty.otherKind => []
     | _ => []) ++ collectPass rest

/-- Second pass of `check_item`: for each impl member that is a
function, fetch its body; the visitor invocation is commented out in
the source, so each iteration emits nothing. -/
def scanPass (associated : List (String × QPath)) :
    List ImplItem → List Finding
  | [] => []
  | implItem :: rest =>
    (match implItem.kind with
     | ImplItemKind.fn _body =>
       -- let visitor = MatchingPathVisitor { cx, types_to_find: associated };
       -- intravisit::walk_body(visitor, body);   (commented out in source)
       []
     | _ => []) ++ scanPass associated rest

/-- `NotUsingAssociatedType::check_item`: the findings emitted for one
item. Collects the associated-type bindings, then walks the function
members. -/
def checkItem (item : Item) : List Finding :=
  match item.kind with
  | ItemKind.impl implItemRefs =>
    let associated := collectPass implItemRefs
    scanPass associated implItemRefs
  | ItemKind.otherKind => []

/-- The observable steps of `check_item`, in execution order:
collecting one associated-type binding (first `for` loop) or locating
one function body (second `for` loop). -/
inductive Event where
  | collectBinding : String → Event
  | scanBody : String → Event
  deriving DecidableEq, Repr

/-- `Event.collectBinding` recogniser. -/
def Event.isCollect : Event → Bool
  | Event.collectBinding _ => true
  | Event.scanBody _ => false

/-- `Event.scanBody` recogniser. -/
def Event.isScan : Event → Bool
  | Event.collectBinding _ => false
  | Event.scanBody _ => true

/-- The events of the first `for` loop of `check_item`: one
`collectBinding` per associated type whose right-hand side is a path,
in member order. -/
def collectPassEvents : List ImplItem → List Event
  | [] => []
  | implItem :: rest =>
    (match implItem.kind with
     | ImplItemKind.tyAlias (Ty.path _) =>
       [Event.collectBinding implItem.ident]
     | _ => []) ++ collectPassEvents rest

/-- The events of the second `for` loop of `check_item`: one
`scanBody` per function member whose body is fetched, in member
order. -/
def scanPassEvents : List ImplItem → List Event
  | [] => []
  | implItem :: rest =>
    (match implItem.kind with
     | ImplItemKind.fn _ => [Event.scanBody implItem.ident]
     | _ => []) ++ scanPassEvents rest

/-- The event trace of one `check_item` call: the source runs the
collection loop to completion before entering the body loop. -/
def checkItemEvents (item : Item) : List Event :=
  match item.kind with
  | ItemKind.impl implItemRefs =>
    collectPassEvents implItemRefs ++ scanPassEvents implItemRefs
  | ItemKind.otherKind => []

/-- The path `Self`, as the base of `Self::Associated` paths. -/
def selfPath : Path := ⟨[⟨"Self"⟩]⟩

/-- Modelled from the spec: an occurrence "already written using the
associated-type name", i.e. a type-relative path `Self::A::…` whose
root is the implementing type and whose first member segment is one of
the collected associated-type names `names`. -/
def viaAssociatedName (names : List String) : QPath → Bool
  | QPath.typeRelative (Ty.path (QPath.resolved none p)) seg =>
    decide (p = selfPath) && names.contains seg.ident
  | QPath.typeRelative (Ty.path q) _ => viaAssociatedName names q
  | _ => false

/-- The names of the bindings collected from an impl's members. -/
def bindingNames (implItemRefs : List ImplItem) : List String :=
  (collectPass implItemRefs).map Prod.fst

/-- All qualified-path occurrences inside the function bodies of an
impl's members, in member order. -/
def bodyOccurrences : List ImplItem → List (QPath × Span)
  | [] => []
  | implItem :: rest =>
    (match implItem.kind with
     | ImplItemKind.fn body => body.qpaths
     | _ => []) ++ bodyOccurrences rest

/-- Every type reference in every method body of the item is written
through the associated-type name (the idempotence precondition of the
spec). -/
def allViaAssociated (item : Item) : Bool :=
  match item.kind with
  | ItemKind.impl implItemRefs =>
    (bodyOccurrences implItemRefs).all fun occ =>
      viaAssociatedName (bindingNames implItemRefs) occ.1
  | ItemKind.otherKind => true

/-- The lint pass value: `declare_lint_pass!` generates a unit-like
struct with no fields, so `check_item`'s `&mut self` can carry no
state. -/
structure Pass where

/-- One `check_item` call threading the pass value, as the host driver
performs it (`&mut self` in, findings out). -/
def checkItemSt (s : Pass) (item : Item) : Pass × List Finding :=
  (s, checkItem item)

/-- The full pipeline over a list of items: the driver calls
`check_item` on each item in order, threading the pass value and
appending the emitted findings. -/
def runPass (s : Pass) : List Item → Pass × List Finding
  | [] => (s, [])
  | item :: rest =>
    let (s', findings) := checkItemSt s item
    let (s'', restFindings) := runPass s' rest
    (s'', findings ++ restFindings)

/-- Which of the three `QPath` constructors a path uses (`Resolved`,
`TypeRelative`, `LangItem`). -/
def variantTag : QPath → Nat
  | QPath.resolved _ _ => 0
  | QPath.typeRelative _ _ => 1
  | QPath.langItem _ => 2

/-- Discriminator used in proofs: the segment idents of a type that is
a plain resolved path. -/
def tyPathSegs : Ty → List String
  | Ty.path (QPath.resolved _ p) => p.segments.map PathSegment.ident
  | _ => []

/-- Concrete inputs for the exact-match scenario: a binding
`Associated = State` and a method body containing an occurrence
identical to the binding's target. -/
def c1StatePath : QPath := QPath.resolved none ⟨[⟨"State"⟩]⟩

def c1ImplItems : List ImplItem :=
  [⟨"Associated", ImplItemKind.tyAlias (Ty.path c1StatePath)⟩,
   ⟨"do_something", ImplItemKind.fn ⟨[(c1StatePath, 7)]⟩⟩]

/-- Concrete inputs for Scenario 1: binding `Associated = State`, a
method matching against `State::A`, `State::B`, `State::C`. -/
def c3ImplItems : List ImplItem :=
  [⟨"Associated", ImplItemKind.tyAlias (Ty.path (QPath.resolved none ⟨[⟨"State"⟩]⟩))⟩,
   ⟨"do_something", ImplItemKind.fn
     ⟨[(QPath.resolved none ⟨[⟨"State"⟩, ⟨"A"⟩]⟩, 1),
       (QPath.resolved none ⟨[⟨"State"⟩, ⟨"B"⟩]⟩, 2),
       (QPath.resolved none ⟨[⟨"State"⟩, ⟨"C"⟩]⟩, 3)]⟩⟩]

def c3Item : Item := ⟨ItemKind.impl c3ImplItems⟩

/-- Two structurally different owner-type qualifiers. -/
def c4OwnerA : Ty := Ty.path (QPath.resolved none ⟨[⟨"OwnerA"⟩]⟩)

def c4OwnerB : Ty := Ty.path (QPath.resolved none ⟨[⟨"OwnerB"⟩]⟩)

/-- Concrete input for idempotence: the body's only occurrence is
`Self::Associated::A`. -/
def c7SelfAssociatedA : QPath :=
  QPath.typeRelative
    (Ty.path (QPath.typeRelative (Ty.path (QPath.resolved none selfPath))
      ⟨"Associated"⟩))
    ⟨"A"⟩

def c7Item : Item :=
  ⟨ItemKind.impl
    [⟨"Associated", ImplItemKind.tyAlias (Ty.path (QPath.resolved none ⟨[⟨"State"⟩]⟩))⟩,
     ⟨"do_something", ImplItemKind.fn ⟨[(c7SelfAssociatedA, 3)]⟩⟩]⟩

/-- Concrete input for the ordering claim: one associated type and one
method. -/
def c8Item : Item :=
  ⟨ItemKind.impl
    [⟨"Associated", ImplItemKind.tyAlias (Ty.path (QPath.resolved none ⟨[⟨"State"⟩]⟩))⟩,
     ⟨"do_something", ImplItemKind.fn ⟨[]⟩⟩]⟩

/-- Malformed impl: two associated-type members named `Associated`
with different targets. -/
def c9DupItems : List ImplItem :=
  [⟨"Associated", ImplItemKind.tyAlias (Ty.path (QPath.resolved none ⟨[⟨"State"⟩]⟩))⟩,
   ⟨"Associated", ImplItemKind.tyAlias (Ty.path (QPath.resolved none ⟨[⟨"Value"⟩]⟩))⟩]

/- Shared lemmas -/

/-- The second pass of `check_item` emits nothing: its visitor
invocation is commented out. -/
theorem scanPass_nil (associated : List (String × QPath))
    (l : List ImplItem) : scanPass associated l = [] := by
  induction l with
  | nil => rfl
  | cons implItem rest ih =>
    obtain ⟨id, k⟩ := implItem
    cases k <;> simpa [scanPass] using ih

/-- `check_item` emits nothing on any item. -/
theorem checkItem_nil (item : Item) : checkItem item = [] := by
  obtain ⟨k⟩ := item
  cases k with
  | impl its => simp [checkItem, scanPass_nil]
  | otherKind => rfl

/-- One iteration of the visitor loop emits only when the binding's
path variant equals the visited path's variant. -/
theorem visitQPathStep_variant (mp occ : QPath) (sp : Span)
    (h : visitQPathStep mp occ sp ≠ []) :
    variantTag mp = variantTag occ := by
  cases mp <;> cases occ <;> first | rfl | exact absurd rfl h

/-- Every event of the collection loop is a `collectBinding`. -/
theorem mem_collectPassEvents {l : List ImplItem} {e : Event}
    (h : e ∈ collectPassEvents l) : e.isCollect = true := by
  induction l with
  | nil => simp [collectPassEvents] at h
  | cons implItem rest ih =>
    obtain ⟨id, k⟩ := implItem
    cases k with
    | tyAlias ty =>
      cases ty with
      | path q =>
        simp only [collectPassEvents, List.singleton_append,
          List.mem_cons] at h
        rcases h with h1 | h2
        · subst h1; rfl
        · exact ih h2
      | otherKind =>
        simp only [collectPassEvents, List.nil_append] at h
        exact ih h
    | fn body =>
      simp only [collectPassEvents, List.nil_append] at h
      exact ih h
    | otherKind =>
      simp only [collectPassEvents, List.nil_append] at h
      exact ih h

/-- Every event of the body loop is a `scanBody`. -/
theorem mem_scanPassEvents {l : List ImplItem} {e : Event}
    (h : e ∈ scanPassEvents l) : e.isScan = true := by
  induction l with
  | nil => simp [scanPassEvents] at h
  | cons implItem rest ih =>
    obtain ⟨id, k⟩ := implItem
    cases k with
    | tyAlias ty =>
      simp only [scanPassEvents, List.nil_append] at h
      exact ih h
    | fn body =>
      simp only [scanPassEvents, List.singleton_append,
        List.mem_cons] at h
      rcases h with h1 | h2
      · subst h1; rfl
      · exact ih h2
    | otherKind =>
      simp only [scanPassEvents, List.nil_append] at h
      exact ih h

/-- An event is not both a collection and a scan step. -/
theorem isScan_eq_false_of_isCollect {e : Event}
    (h : e.isCollect = true) : e.isScan = false := by
  cases e with
  | collectBinding n => rfl
  | scanBody n => exact absurd h (by simp [Event.isCollect])

/- Claim theorems -/

/-- C1 (code bug): an occurrence textually and structurally identical
to the collected binding's target is present in a method body, and the
matcher of `visit_qpath` matches it, yet `check_item` produces no
Finding for it: the body-visitor invocation is commented out, so
exact-match completeness fails. -/
theorem c1_exact_match_completeness_code_bug :
    checkItem ⟨ItemKind.impl c1ImplItems⟩ = [] ∧
      visitQPath (collectPass c1ImplItems) c1StatePath 7 =
        [⟨7, lintMessage⟩] :=
  ⟨rfl, rfl⟩

/-- C2: for every input item, `check_item` emits zero diagnostics. -/
theorem c2_check_item_emits_nothing (item : Item) :
    checkItem item = [] :=
  checkItem_nil item

/-- C3 (code bug): on the Scenario 1 input (binding
`Associated = State`, arms `State::A`, `State::B`, `State::C`) the
lint pass produces 0 Findings, not the 3 the scenario requires, even
though the matcher would match each arm. -/
theorem c3_scenario1_code_bug :
    (checkItem c3Item).length = 0 ∧ (checkItem c3Item).length ≠ 3 ∧
      visitQPath (collectPass c3ImplItems)
        (QPath.resolved none ⟨[⟨"State"⟩, ⟨"A"⟩]⟩) 1 = [⟨1, lintMessage⟩] ∧
      visitQPath (collectPass c3ImplItems)
        (QPath.resolved none ⟨[⟨"State"⟩, ⟨"B"⟩]⟩) 2 = [⟨2, lintMessage⟩] ∧
      visitQPath (collectPass c3ImplItems)
        (QPath.resolved none ⟨[⟨"State"⟩, ⟨"C"⟩]⟩) 3 = [⟨3, lintMessage⟩] :=
  ⟨rfl, by decide, rfl, rfl, rfl⟩

/-- C4 (code bug): `compare_self_ty` correctly rejects a qualifier on
exactly one side, but its `Some`/`Some` branch is a `TODO` stub that
returns `true` even for structurally different qualifiers, so the
equal-only requirement fails. -/
theorem c4_self_qualifier_check_code_bug :
    compare_self_ty (some c4OwnerA) none = false ∧
      compare_self_ty none (some c4OwnerB) = false ∧
      c4OwnerA ≠ c4OwnerB ∧
      compare_self_ty (some c4OwnerA) (some c4OwnerB) = true := by
  refine ⟨rfl, rfl, ?_, rfl⟩
  have hsegs : tyPathSegs c4OwnerA ≠ tyPathSegs c4OwnerB := by decide
  exact fun h => hsegs (congrArg tyPathSegs h)

/-- C5 (code bug): `compare_path` is a stub returning `true` for every
pair, so two paths with different base identity still compare as
equal; likewise `compare_path_segments`. -/
theorem c5_path_segment_check_code_bug :
    (⟨[⟨"State"⟩]⟩ : Path) ≠ ⟨[⟨"Value"⟩]⟩ ∧
      compare_path ⟨[⟨"State"⟩]⟩ ⟨[⟨"Value"⟩]⟩ = true ∧
      (⟨"State"⟩ : PathSegment) ≠ ⟨"Value"⟩ ∧
      compare_path_segments ⟨"State"⟩ ⟨"Value"⟩ = true :=
  ⟨by decide, rfl, by decide, rfl⟩

/-- C6: `visit_qpath` emits only when some binding's path-shape
variant is identical to the visited occurrence's variant. -/
theorem c6_variant_check (typesToFind : List (String × QPath))
    (occ : QPath) (sp : Span)
    (h : visitQPath typesToFind occ sp ≠ []) :
    ∃ p ∈ typesToFind, variantTag p.2 = variantTag occ := by
  induction typesToFind with
  | nil => exact absurd rfl h
  | cons head rest ih =>
    obtain ⟨u, mp⟩ := head
    by_cases hstep : visitQPathStep mp occ sp = []
    · have hrest : visitQPath rest occ sp ≠ [] := by
        intro hr
        apply h
        simp [visitQPath, hstep, hr]
      obtain ⟨p, hp, hv⟩ := ih hrest
      exact ⟨p, List.mem_cons_of_mem _ hp, hv⟩
    · exact ⟨(u, mp), List.mem_cons_self _ _,
        visitQPathStep_variant mp occ sp hstep⟩

/-- Witness for C6 at a concrete input: a `Resolved` binding and a
`Resolved` occurrence that produce an emission. -/
theorem c6_variant_check_witness :
    visitQPath [("Associated", QPath.resolved none ⟨[⟨"State"⟩]⟩)]
        (QPath.resolved none ⟨[⟨"State"⟩]⟩) 7 ≠ [] ∧
      ∃ p ∈ [("Associated", QPath.resolved none (⟨[⟨"State"⟩]⟩ : Path))],
        variantTag p.2 = variantTag (QPath.resolved none ⟨[⟨"State"⟩]⟩) :=
  ⟨by decide,
    c6_variant_check [("Associated", QPath.resolved none ⟨[⟨"State"⟩]⟩)]
      (QPath.resolved none ⟨[⟨"State"⟩]⟩) 7 (by decide)⟩

/-- C7: a body whose every type reference is already written through
the associated-type name yields zero Findings from the lint pass. -/
theorem c7_idempotence (item : Item)
    (h : allViaAssociated item = true) : checkItem item = [] :=
  checkItem_nil item

/-- Witness for C7 at a concrete input: an impl whose single body
occurrence is `Self::Associated::A`. -/
theorem c7_idempotence_witness :
    allViaAssociated c7Item = true ∧ checkItem c7Item = [] :=
  ⟨by decide, c7_idempotence c7Item (by decide)⟩

/-- C8: in the event trace of `check_item`, every binding-collection
step precedes every body-locating step: the collection loop runs to
completion before the body loop starts. -/
theorem c8_collect_before_scan (item : Item) (i j : Nat) (e f : Event)
    (he : (checkItemEvents item)[i]? = some e)
    (hf : (checkItemEvents item)[j]? = some f)
    (hce : e.isCollect = true) (hsf : f.isScan = true) : i < j := by
  obtain ⟨k⟩ := item
  cases k with
  | otherKind => simp [checkItemEvents] at he
  | impl its =>
    have hev : checkItemEvents ⟨ItemKind.impl its⟩ =
        collectPassEvents its ++ scanPassEvents its := rfl
    rw [hev] at he hf
    have hi : i < (collectPassEvents its).length := by
      by_contra hge
      push_neg at hge
      rw [List.getElem?_append_right hge] at he
      have hmem := mem_scanPassEvents (List.getElem?_mem he)
      rw [isScan_eq_false_of_isCollect hce] at hmem
      exact Bool.noConfusion hmem
    have hj : (collectPassEvents its).length ≤ j := by
      by_contra hlt
      push_neg at hlt
      rw [List.getElem?_append_left hlt] at hf
      have hmem := mem_collectPassEvents (List.getElem?_mem hf)
      have hfs := isScan_eq_false_of_isCollect hmem
      rw [hsf] at hfs
      exact Bool.noConfusion hfs
    exact Nat.lt_of_lt_of_le hi hj

/-- Witness for C8 at a concrete input: index 0 collects the binding,
index 1 locates the body, and 0 < 1. -/
theorem c8_collect_before_scan_witness :
    ((checkItemEvents c8Item)[0]? = some (Event.collectBinding "Associated") ∧
      (checkItemEvents c8Item)[1]? = some (Event.scanBody "do_something") ∧
      Event.isCollect (Event.collectBinding "Associated") = true ∧
      Event.isScan (Event.scanBody "do_something") = true) ∧
      0 < 1 :=
  ⟨⟨by decide, by decide, rfl, rfl⟩,
    c8_collect_before_scan c8Item 0 1 (Event.collectBinding "Associated")
      (Event.scanBody "do_something") (by decide) (by decide) rfl rfl⟩

/-- C9 counterexample: with two same-name bindings, collection keeps
both and matching consults both, so an occurrence draws two emissions
where a list containing only the first definition would draw one —
matching does not behave as if only the first definition existed. -/
theorem c9_duplicate_bindings_counterexample :
    collectPass c9DupItems =
      [("Associated", QPath.resolved none ⟨[⟨"State"⟩]⟩),
       ("Associated", QPath.resolved none ⟨[⟨"Value"⟩]⟩)] ∧
      visitQPath (collectPass c9DupItems)
        (QPath.resolved none ⟨[⟨"Value"⟩]⟩) 4 =
        [⟨4, lintMessage⟩, ⟨4, lintMessage⟩] ∧
      visitQPath [("Associated", QPath.resolved none ⟨[⟨"State"⟩]⟩)]
        (QPath.resolved none ⟨[⟨"Value"⟩]⟩) 4 =
        [⟨4, lintMessage⟩] :=
  ⟨rfl, rfl, rfl⟩

/-- C9 amended: duplicate names raise no error; collection keeps every
binding, and `visit_qpath` consults each collected binding
independently, concatenating their emissions in order. -/
theorem c9_duplicate_bindings_amended
    (typesToFind : List (String × QPath)) (occ : QPath) (sp : Span) :
    visitQPath typesToFind occ sp =
      (typesToFind.map fun p => visitQPathStep p.2 occ sp).flatten := by
  induction typesToFind with
  | nil => rfl
  | cons head rest ih =>
    obtain ⟨u, mp⟩ := head
    simp [visitQPath, ih]

/-- C10: the pass is stateless, so the findings of a run do not depend
on the pass value: running the pipeline a second time from the state
left by the first run yields the identical finding list, order
included. -/
theorem c10_determinism (items : List Item) (s : Pass) :
    (runPass (runPass s items).1 items).2 = (runPass s items).2 := by
  have hp : (runPass s items).1 = s := by
    cases (runPass s items).1
    cases s
    rfl
  rw [hp]

end NotUsingAssociatedType
